import Mathlib

/-!
Verification of the ComfyUI-Prompt-Translator core (`__init__.py`).

Shallow embedding of `ArgosTranslateManager` and the verification of the
claims of the specification about it.  The embedding follows the Python source:

* `simple_language_detect`   — the heuristic language detector;
* `get_language_code_from_display` — display-string → language-code parsing;
* `ensure_translation_package` — the package-availability cache, with the
  external Argos engine modelled as a structure of fallible operations
  (`Except` models a Python exception) and an event log recording which
  engine operations were invoked;
* `translate_text`           — the translation facade;
* a small interleaving machine (`MState`/`step`) modelling two threads
  executing `ensure_translation_package` concurrently for the same fresh
  language pair, at the granularity of the source block
  `with cls._download_lock:` (lines 153–210).
-/

/-! ## Python string primitives -/

/-- Python ASCII whitespace, the set stripped by `str.strip()` /
split on by `str.split()`. -/
def pyWs (c : Char) : Bool :=
  c = ' ' || c = '\t' || c = '\n' || c = '\r' || c = '\x0b' || c = '\x0c'

/-- Model of `str.strip()`: drop leading and trailing whitespace. -/
def pyStrip (s : String) : String :=
  String.mk (((s.data.dropWhile pyWs).reverse.dropWhile pyWs).reverse)

/-- Does `hay` start with `pat`? -/
def charsStartWith : List Char → List Char → Bool
  | _, [] => true
  | [], _ :: _ => false
  | a :: as, b :: bs => a == b && charsStartWith as bs

/-- Substring containment on character lists (`needle` occurs in `hay`). -/
def charsContain : List Char → List Char → Bool
  | [], needle => needle.isEmpty
  | c :: cs, needle => charsStartWith (c :: cs) needle || charsContain cs needle

/-- Model of the Python string operator `needle in hay`: substring containment. -/
def pyIn (needle hay : String) : Bool :=
  charsContain hay.data needle.data

/-- One step of Python `str.lower()`, modelled on the character ranges that
occur in this module (ASCII, Latin-1 supplement, Greek, Cyrillic); identity
elsewhere. -/
def pyLowerChar (c : Char) : Char :=
  let n := c.toNat
  if 0x41 ≤ n ∧ n ≤ 0x5A then Char.ofNat (n + 0x20)
  else if 0xC0 ≤ n ∧ n ≤ 0xDE ∧ n ≠ 0xD7 then Char.ofNat (n + 0x20)
  else if 0x391 ≤ n ∧ n ≤ 0x3A9 ∧ n ≠ 0x3A2 then Char.ofNat (n + 0x20)
  else if 0x400 ≤ n ∧ n ≤ 0x40F then Char.ofNat (n + 0x50)
  else if 0x410 ≤ n ∧ n ≤ 0x42F then Char.ofNat (n + 0x20)
  else c

/-- Python `str.lower()` (restricted as in `pyLowerChar`). -/
def pyLower (s : String) : String := String.mk (s.data.map pyLowerChar)

/-- Everything before the first occurrence of `sep` (assuming it occurs):
`s.split(sep)[0]`. -/
def beforeFirst : List Char → List Char → List Char
  | [], _ => []
  | c :: cs, sep =>
    if charsStartWith (c :: cs) sep then [] else c :: beforeFirst cs sep

/-- Python `str.split()` (no argument): split on whitespace runs, no empty
words.  Auxiliary worker carrying the current (reversed) word. -/
def splitWsAux : List Char → List Char → List (List Char)
  | [], acc => if acc.isEmpty then [] else [acc.reverse]
  | c :: cs, acc =>
    if pyWs c then
      if acc.isEmpty then splitWsAux cs [] else acc.reverse :: splitWsAux cs []
    else splitWsAux cs (c :: acc)

/-- The whitespace-separated words of a string (Python `s.split()`). -/
def pyWords (s : String) : List String := (splitWsAux s.data []).map String.mk

/-! ## The language detector (`simple_language_detect`, lines 75–139) -/

/-- Range check `0x0400 ≤ ord(c) ≤ 0x04FF` (line 84). -/
def isCyrillicChar (c : Char) : Bool := decide (0x400 ≤ c.toNat ∧ c.toNat ≤ 0x4FF)

/-- Range check `0x4E00 ≤ ord(c) ≤ 0x9FFF` (line 90). -/
def isCJKChar (c : Char) : Bool := decide (0x4E00 ≤ c.toNat ∧ c.toNat ≤ 0x9FFF)

/-- Range check `0x3040 ≤ ord(c) ≤ 0x309F` (line 93). -/
def isHiraganaChar (c : Char) : Bool := decide (0x3040 ≤ c.toNat ∧ c.toNat ≤ 0x309F)

/-- Range check `0xAC00 ≤ ord(c) ≤ 0xD7AF` (line 96). -/
def isHangulChar (c : Char) : Bool := decide (0xAC00 ≤ c.toNat ∧ c.toNat ≤ 0xD7AF)

/-- Range check `0x0600 ≤ ord(c) ≤ 0x06FF` (line 100). -/
def isArabicChar (c : Char) : Bool := decide (0x600 ≤ c.toNat ∧ c.toNat ≤ 0x6FF)

/-- Range check `0x0590 ≤ ord(c) ≤ 0x05FF` (line 104). -/
def isHebrewChar (c : Char) : Bool := decide (0x590 ≤ c.toNat ∧ c.toNat ≤ 0x5FF)

/-- Range check `0x0370 ≤ ord(c) ≤ 0x03FF` (line 108). -/
def isGreekChar (c : Char) : Bool := decide (0x370 ≤ c.toNat ∧ c.toNat ≤ 0x3FF)

/-- Range check `0x0E00 ≤ ord(c) ≤ 0x0E7F` (line 112). -/
def isThaiChar (c : Char) : Bool := decide (0xE00 ≤ c.toNat ∧ c.toNat ≤ 0xE7F)

/-- The fixed accented-character set of line 116. -/
def accentChars : List Char := "àáâãäåæçèéêëìíîïðñòóôõöøùúûüýþÿ".data

/-- Ukrainian stop-words (line 85). -/
def ukWords : List String := ["що", "але", "або", "який", "яка", "яке"]

/-- Italian stop-words (line 117). -/
def itWords : List String :=
  ["il", "la", "le", "di", "da", "in", "con", "per", "che", "non", "una", "uno"]

/-- Spanish stop-words (line 119). -/
def esWords : List String :=
  ["el", "la", "los", "las", "de", "del", "en", "con", "por", "que", "no", "es", "un", "una"]

/-- French stop-words (line 121). -/
def frWords : List String :=
  ["le", "la", "les", "de", "du", "des", "en", "dans", "avec", "pour", "que", "ne", "un", "une"]

/-- German stop-words (line 123). -/
def deWords : List String :=
  ["der", "die", "das", "den", "dem", "des", "ein", "eine", "und", "oder", "nicht", "ist"]

/-- Portuguese stop-words (line 125). -/
def ptWords : List String :=
  ["o", "a", "os", "as", "de", "do", "da", "em", "com", "por", "que", "não", "um", "uma"]

/-- Swedish stop-words (line 129). -/
def svWords : List String :=
  ["och", "att", "är", "den", "det", "en", "ett", "för", "på", "av"]

/-- Norwegian stop-words (line 132). -/
def noWords : List String :=
  ["og", "at", "er", "den", "det", "en", "et", "for", "på", "av"]

/-- Danish stop-words (line 135). -/
def daWords : List String :=
  ["og", "at", "er", "den", "det", "en", "et", "for", "på", "af"]

/-- Model of `any(word in text_lower for word in words)`. -/
def anyWordIn (words : List String) (textLower : String) : Bool :=
  words.any (fun w => pyIn w textLower)

/-- The Nordic fall-through checks of lines 129–139 (`text_lower` already
lower-cased by the caller). -/
def nordicDetect (textLower : String) : String :=
  if anyWordIn svWords textLower then "sv"
  else if anyWordIn noWords textLower then "no"
  else if anyWordIn daWords textLower then "da"
  else "en"

/-- Embedding of `ArgosTranslateManager.simple_language_detect` (lines 75–139).
`text_lower = text.lower()` is inlined as `pyLower text`. -/
def simple_language_detect (text : String) : String :=
  if text = "" ∨ (pyStrip text).length < 3 then "en"
  else if text.data.any isCyrillicChar then
    (if anyWordIn ukWords (pyLower text) then "uk" else "ru")
  else if text.data.any isCJKChar then "zh"
  else if text.data.any isHiraganaChar then "ja"
  else if text.data.any isHangulChar then "ko"
  else if text.data.any isArabicChar then "ar"
  else if text.data.any isHebrewChar then "he"
  else if text.data.any isGreekChar then "el"
  else if text.data.any isThaiChar then "th"
  else if accentChars.any (fun c => text.data.contains c) then
    (if anyWordIn itWords (pyLower text) then "it"
     else if anyWordIn esWords (pyLower text) then "es"
     else if anyWordIn frWords (pyLower text) then "fr"
     else if anyWordIn deWords (pyLower text) then "de"
     else if anyWordIn ptWords (pyLower text) then "pt"
     else nordicDetect (pyLower text))
  else nordicDetect (pyLower text)

/-- Modelled from the spec (for claim C6 only): the reading the claim gives of the
European stop-word step, under which a list matches only when one of its
words occurs as a whole case-folded word of the text. -/
def specWholeWordMatch (words : List String) (textLower : String) : Bool :=
  words.any (fun w => (pyWords textLower).contains w)

/-! ## The external Argos engine and the availability cache

A Python call that may raise is modelled as an `Except String` value
(`Except.error` = exception).  The engine is a structure of such operations;
`get_installed_languages` takes a call index so successive calls may answer
differently.  The embedding also returns a log of the engine operations it
invoked (`EngEvt`), which lets the theorems say "no download / no index
refresh happened". -/

/-- A `Translation` object: `translation.translate(text)`. -/
structure Translation where
  run : String → Except String String

/-- An installed Argos `Language` object: its `code` and
`get_translation(target)`, keyed here by the code of the target language.
(Named `LangEntry` because `Language` already exists in the library.) -/
structure LangEntry where
  code : String
  getTranslation : String → Except String (Option Translation)

/-- An available package entry (`pkg.from_code`, `pkg.to_code`, `pkg.size`,
`pkg.is_installed()`, `pkg.download()`). -/
structure Pkg where
  from_code : String
  to_code : String
  size : Nat
  is_installed : Except String Bool
  download : Except String String

/-- The engine boundary (`argostranslate.translate` / `argostranslate.package`). -/
structure Engine where
  get_installed_languages : Nat → Except String (List LangEntry)
  update_package_index : Except String Unit
  get_available_packages : Except String (List Pkg)
  install_from_path : String → Except String Unit

/-- Events recorded by the embedding: one per engine operation invoked,
plus the facade-internal events `detectEvt` (the detector ran) and
`ensureEnter` (the facade invoked `ensure_translation_package`). -/
inductive EngEvt
  | getInstalled
  | langGetTranslation
  | updateIndex
  | getAvailable
  | pkgIsInstalled
  | pkgDownload
  | installPath
  | runTranslate
  | detectEvt
  | ensureEnter
deriving DecidableEq, Repr

/-- The `_downloading` registry (`cls._downloading`, a set of
`f"{source}-{target}"` keys). -/
abbrev Reg := List String

/-- Model of `set.discard`: remove every occurrence of a key. -/
def regRemove (reg : Reg) (k : String) : Reg := reg.filter (fun x => x ≠ k)

/-- The slow path of `ensure_translation_package` (lines 169–210): index
refresh, package lookup, download and install.  `rOut` is the registry after
the `finally: cls._downloading.discard(package_key)` (the add of line 192
followed unconditionally by the discard of line 210 nets to a discard, so
every exit of the `try` returns the same registry). -/
def ensureSlow (eng : Engine) (rOut : Reg) (s t : String) (log : List EngEvt) :
    Bool × Reg × List EngEvt :=
  match eng.update_package_index with
  | Except.error _ => (false, rOut, log ++ [EngEvt.updateIndex])
  | Except.ok _ =>
    match eng.get_available_packages with
    | Except.error _ => (false, rOut, log ++ [EngEvt.updateIndex, EngEvt.getAvailable])
    | Except.ok pkgs =>
      match pkgs.find? (fun p => p.from_code == s && p.to_code == t) with
      | none => (false, rOut, log ++ [EngEvt.updateIndex, EngEvt.getAvailable])
      | some p =>
        match p.is_installed with
        | Except.error _ =>
          (false, rOut, log ++ [EngEvt.updateIndex, EngEvt.getAvailable, EngEvt.pkgIsInstalled])
        | Except.ok true =>
          (true, rOut, log ++ [EngEvt.updateIndex, EngEvt.getAvailable, EngEvt.pkgIsInstalled])
        | Except.ok false =>
          match p.download with
          | Except.error _ =>
            (false, rOut, log ++ [EngEvt.updateIndex, EngEvt.getAvailable,
                                  EngEvt.pkgIsInstalled, EngEvt.pkgDownload])
          | Except.ok pth =>
            match eng.install_from_path pth with
            | Except.error _ =>
              (false, rOut, log ++ [EngEvt.updateIndex, EngEvt.getAvailable,
                                    EngEvt.pkgIsInstalled, EngEvt.pkgDownload, EngEvt.installPath])
            | Except.ok _ =>
              (true, rOut, log ++ [EngEvt.updateIndex, EngEvt.getAvailable,
                                   EngEvt.pkgIsInstalled, EngEvt.pkgDownload, EngEvt.installPath])

/-- The `try` body of `ensure_translation_package` (lines 158–210): the
already-installed fast path, falling through to `ensureSlow`.  An exception
anywhere in the body is caught by the `except` (line 204) and becomes
`false`; the `finally` is accounted for in `rOut` as in `ensureSlow`. -/
def ensureTry (eng : Engine) (rOut : Reg) (s t : String) : Bool × Reg × List EngEvt :=
  match eng.get_installed_languages 0 with
  | Except.error _ => (false, rOut, [EngEvt.getInstalled])
  | Except.ok langs =>
    match langs.find? (fun l => l.code == s) with
    | some sl =>
      match langs.find? (fun l => l.code == t) with
      | some tl =>
        match sl.getTranslation tl.code with
        | Except.error _ => (false, rOut, [EngEvt.getInstalled, EngEvt.langGetTranslation])
        | Except.ok (some _) => (true, rOut, [EngEvt.getInstalled, EngEvt.langGetTranslation])
        | Except.ok none =>
          ensureSlow eng rOut s t [EngEvt.getInstalled, EngEvt.langGetTranslation]
      | none => ensureSlow eng rOut s t [EngEvt.getInstalled]
    | none => ensureSlow eng rOut s t [EngEvt.getInstalled]

/-- Embedding of `ArgosTranslateManager.ensure_translation_package` (lines 141–210),
sequential semantics (the lock of line 153 is the identity for a single
caller; the interleaved semantics is the machine below).  Returns the
Python boolean, the registry after the call, and the engine-event log.
The `Busy` path (line 156) returns with the registry untouched, since the
early `return False` skips the `try`/`finally`. -/
def ensure_translation_package (eng : Engine) (reg : Reg) (source_lang target_lang : String) :
    Bool × Reg × List EngEvt :=
  if source_lang = "auto" then (true, reg, [])
  else if source_lang = target_lang then (true, reg, [])
  else if source_lang ++ "-" ++ target_lang ∈ reg then (false, reg, [])
  else ensureTry eng (regRemove reg (source_lang ++ "-" ++ target_lang)) source_lang target_lang

/-- Embedding of `ArgosTranslateManager.get_language_code_from_display` (lines 63–68). -/
def get_language_code_from_display (display_name : String) : String :=
  if pyIn " - " display_name then String.mk (beforeFirst display_name.data (" - ").data)
  else display_name

/-- The tail of `translate_text` after a successful package check
(lines 239–265): re-query installed languages, look up both codes, fetch the
translation object and run it; every failure returns the original text. -/
def afterEnsure (eng : Engine) (reg : Reg) (text sc tc : String) (log : List EngEvt) :
    String × Reg × List EngEvt :=
  match eng.get_installed_languages 1 with
  | Except.error _ => (text, reg, log ++ [EngEvt.getInstalled])
  | Except.ok langs =>
    match langs.find? (fun l => l.code == sc) with
    | none => (text, reg, log ++ [EngEvt.getInstalled])
    | some sl =>
      match langs.find? (fun l => l.code == tc) with
      | none => (text, reg, log ++ [EngEvt.getInstalled])
      | some tl =>
        match sl.getTranslation tl.code with
        | Except.error _ =>
          (text, reg, log ++ [EngEvt.getInstalled, EngEvt.langGetTranslation])
        | Except.ok none =>
          (text, reg, log ++ [EngEvt.getInstalled, EngEvt.langGetTranslation])
        | Except.ok (some tr) =>
          match tr.run text with
          | Except.error _ =>
            (text, reg, log ++ [EngEvt.getInstalled, EngEvt.langGetTranslation,
                                EngEvt.runTranslate])
          | Except.ok out =>
            (out, reg, log ++ [EngEvt.getInstalled, EngEvt.langGetTranslation,
                               EngEvt.runTranslate])

/-- Body of `translate_text` from the resolved source/target codes on
(lines 230–265): identity-pair check, package check, then `afterEnsure`. -/
def translateWithCodes (eng : Engine) (reg : Reg) (text sc tc : String)
    (dlog : List EngEvt) : String × Reg × List EngEvt :=
  if sc = tc then (text, reg, dlog)
  else if (ensure_translation_package eng reg sc tc).1 then
    afterEnsure eng (ensure_translation_package eng reg sc tc).2.1 text sc tc
      (dlog ++ EngEvt.ensureEnter :: (ensure_translation_package eng reg sc tc).2.2)
  else
    (text, (ensure_translation_package eng reg sc tc).2.1,
      dlog ++ EngEvt.ensureEnter :: (ensure_translation_package eng reg sc tc).2.2)

/-- Embedding of `ArgosTranslateManager.translate_text` (lines 212–270).  The `try` of
line 218 catches every exception and returns the original text; in the
embedding every fallible step is already matched on, so the catch-all is
realised by each failure branch returning `text`. -/
def translate_text (eng : Engine) (reg : Reg) (text source_lang target_lang : String) :
    String × Reg × List EngEvt :=
  if text = "" ∨ pyStrip text = "" then (text, reg, [])
  else if get_language_code_from_display source_lang = "auto" then
    translateWithCodes eng reg text (simple_language_detect text)
      (get_language_code_from_display target_lang) [EngEvt.detectEvt]
  else
    translateWithCodes eng reg text (get_language_code_from_display source_lang)
      (get_language_code_from_display target_lang) []

/-- The fast path of `ensure_translation_package` falls through to the slow
path: if both language lookups succeed, `get_translation` returns `None`
(rather than raising or returning a translation). -/
def fastPathMiss (langs : List LangEntry) (s t : String) : Prop :=
  ∀ sl tl, langs.find? (fun l => l.code == s) = some sl →
    langs.find? (fun l => l.code == t) = some tl →
    sl.getTranslation tl.code = Except.ok none

/-! ### Concrete engines used by the witness theorems -/

/-- An engine every operation of which raises. -/
def failEngine : Engine where
  get_installed_languages := fun _ => Except.error "down"
  update_package_index := Except.error "down"
  get_available_packages := Except.error "down"
  install_from_path := fun _ => Except.error "down"

/-- A translation object that succeeds, prepending a marker to its input. -/
def okTranslationIt : Translation where
  run := fun s => Except.ok ("EN:" ++ s)

/-- An installed Italian language with a working translation to English. -/
def langIt : LangEntry where
  code := "it"
  getTranslation := fun c =>
    if c = "en" then Except.ok (some okTranslationIt) else Except.ok none

/-- An installed English language. -/
def langEn : LangEntry where
  code := "en"
  getTranslation := fun _ => Except.ok none

/-- An engine on which the pair `(it, en)` is already installed and working;
the index operations raise, so any theorem about this engine that returns
`true` demonstrably never reached them. -/
def readyEngine : Engine where
  get_installed_languages := fun _ => Except.ok [langIt, langEn]
  update_package_index := Except.error "unreachable"
  get_available_packages := Except.error "unreachable"
  install_from_path := fun _ => Except.error "unreachable"

/-- An available `(it, en)` package whose `download()` raises. -/
def badPkg : Pkg where
  from_code := "it"
  to_code := "en"
  size := 0
  is_installed := Except.ok false
  download := Except.error "network down"

/-- An engine with no installed languages and one available `(it, en)`
package whose download fails. -/
def badDownloadEngine : Engine where
  get_installed_languages := fun _ => Except.ok []
  update_package_index := Except.ok ()
  get_available_packages := Except.ok [badPkg]
  install_from_path := fun _ => Except.ok ()

/-! ## Two concurrent callers of `ensure_translation_package`

The interleaving machine for claim C1.  Two threads (`true` and `false`)
each execute `ensure_translation_package(s, t)` for the *same*
never-before-seen pair: the pair is not installed, the upstream index has a
matching not-yet-installed package, and the download succeeds.  Program
counters follow the source:

* pc 0 — before `with cls._download_lock:` (line 153): blocked while the
  other thread holds the lock, because the lock is held for the whole
  `try`/`finally` body (lines 153–210);
* pc 1 — holding the lock, about to test `package_key in cls._downloading`
  (line 154): if present, return `False` (`Busy`) releasing the lock;
* pc 2 — the already-installed check (lines 160–167): if the pair is
  installed return `True` (`Ready`) releasing the lock; otherwise the index
  lookup finds the package and `cls._downloading.add(package_key)` runs
  (line 192);
* pc 3 — `target_package.download()` + `install_from_path` (lines 198–199):
  one `download()` invocation, the pair becomes installed;
* pc 4 — `finally: cls._downloading.discard(package_key)` (line 210) and the
  release of the lock at the end of the `with` block;
* pc 5 — returned.
-/

/-- The observable outcome of one `ensure_translation_package` caller. -/
inductive TRes
  | ready
  | busy
deriving DecidableEq, Repr, Fintype

/-- Shared state of the two concurrent callers. -/
structure MState where
  lockBy : Option Bool
  downloading : Bool
  installed : Bool
  downloads : Nat
  pcT : Nat
  pcF : Nat
  resT : Option TRes
  resF : Option TRes
deriving DecidableEq, Repr

/-- The program counter of thread `t`. -/
def pcOf (s : MState) (t : Bool) : Nat := if t then s.pcT else s.pcF

/-- The recorded result of thread `t`. -/
def resOf (s : MState) (t : Bool) : Option TRes := if t then s.resT else s.resF

/-- Set the program counter of thread `t`. -/
def setPc (s : MState) (t : Bool) (p : Nat) : MState :=
  if t then { s with pcT := p } else { s with pcF := p }

/-- Thread `t` returns `r`: release the lock, record the result, go to pc 5. -/
def finish (s : MState) (t : Bool) (r : TRes) : MState :=
  if t then { s with lockBy := none, pcT := 5, resT := some r }
  else { s with lockBy := none, pcF := 5, resF := some r }

/-- One atomic step of thread `t` (a no-op when blocked or finished). -/
def step (s : MState) (t : Bool) : MState :=
  if pcOf s t = 0 then
    match s.lockBy with
    | none => setPc { s with lockBy := some t } t 1
    | some _ => s
  else if pcOf s t = 1 then
    (if s.downloading then finish s t TRes.busy else setPc s t 2)
  else if pcOf s t = 2 then
    (if s.installed then finish s t TRes.ready
     else setPc { s with downloading := true } t 3)
  else if pcOf s t = 3 then
    setPc { s with downloads := s.downloads + 1, installed := true } t 4
  else if pcOf s t = 4 then
    finish { s with downloading := false } t TRes.ready
  else s

/-- Run a schedule (a list of thread choices). -/
def run (s : MState) (sched : List Bool) : MState := sched.foldl step s

/-- Initial state: lock free, registry empty, fresh pair. -/
def mInit : MState :=
  { lockBy := none, downloading := false, installed := false, downloads := 0
    pcT := 0, pcF := 0, resT := none, resF := none }

/-- The inductive invariant of the two-thread machine.  It pins down the
lock discipline of the source: the lock is held from line 153 to line 210,
so a thread inside the critical section (pc 1–4) owns the lock and the
other thread is at pc 0 or 5; the `_downloading` registry is non-empty
exactly while the lock holder is between the `add` of line 192 and the
`discard` of line 210; `download()` runs at most once; a finished thread
always returned `True` (`Ready`), never the `Busy` of line 156. -/
@[reducible] def MInv (s : MState) : Prop :=
  s.pcT ≤ 5 ∧ s.pcF ≤ 5 ∧
  (s.lockBy = some true → (1 ≤ s.pcT ∧ s.pcT ≤ 4) ∧ (s.pcF = 0 ∨ s.pcF = 5)) ∧
  (s.lockBy = some false → (1 ≤ s.pcF ∧ s.pcF ≤ 4) ∧ (s.pcT = 0 ∨ s.pcT = 5)) ∧
  (s.lockBy = none → (s.pcT = 0 ∨ s.pcT = 5) ∧ (s.pcF = 0 ∨ s.pcF = 5)) ∧
  (s.downloading = true ↔ (s.pcT = 3 ∨ s.pcT = 4 ∨ s.pcF = 3 ∨ s.pcF = 4)) ∧
  (s.installed = true ↔ s.downloads = 1) ∧
  s.downloads ≤ 1 ∧
  (s.pcT = 3 → s.installed = false) ∧ (s.pcF = 3 → s.installed = false) ∧
  (s.pcT = 4 → s.installed = true) ∧ (s.pcF = 4 → s.installed = true) ∧
  (s.pcT = 5 → s.resT = some TRes.ready ∧ s.downloads = 1) ∧
  (s.pcF = 5 → s.resF = some TRes.ready ∧ s.downloads = 1) ∧
  s.resT ≠ some TRes.busy ∧ s.resF ≠ some TRes.busy

/-! ## Theorems -/

/-- Helper: if the Nordic chain classifies a lower-cased text as Danish,
the text contains "af" and none of the nine stop-words the Danish list
shares with the Norwegian list. -/
theorem nordicDetect_da_shape (L : String) (h : nordicDetect L = "da") :
    pyIn "af" L = true ∧ pyIn "og" L = false ∧ pyIn "at" L = false ∧
    pyIn "er" L = false ∧ pyIn "den" L = false ∧ pyIn "det" L = false ∧
    pyIn "en" L = false ∧ pyIn "et" L = false ∧ pyIn "for" L = false ∧
    pyIn "på" L = false := by
  unfold nordicDetect at h
  by_cases hsv : anyWordIn svWords L = true
  · rw [if_pos hsv] at h
    exact absurd h (by decide)
  · rw [if_neg hsv] at h
    by_cases hno : anyWordIn noWords L = true
    · rw [if_pos hno] at h
      exact absurd h (by decide)
    · rw [if_neg hno] at h
      by_cases hda : anyWordIn daWords L = true
      · simp only [anyWordIn, noWords, daWords, List.any_cons, List.any_nil,
          Bool.or_eq_true, Bool.or_false, not_or, Bool.not_eq_true] at hno hda
        obtain ⟨hog, hat, her, hden, hdet, hen, het, hfor, hpa, hav⟩ := hno
        rcases hda with h1 | h1 | h1 | h1 | h1 | h1 | h1 | h1 | h1 | h1 <;>
          first
            | (exact ⟨h1, hog, hat, her, hden, hdet, hen, het, hfor, hpa⟩)
            | simp_all
      · rw [if_neg hda] at h
        exact absurd h (by decide)

/-- C10: `simple_language_detect` returns "da" only for texts whose
lower-cased form contains "af" as a substring while containing none of
"og", "at", "er", "den", "det", "en", "et", "for", "på" — every other
Danish stop-word is shared with the Norwegian list, which is checked
first. -/
theorem detect_da_requires_af (t : String) (h : simple_language_detect t = "da") :
    pyIn "af" (pyLower t) = true ∧ pyIn "og" (pyLower t) = false ∧
    pyIn "at" (pyLower t) = false ∧ pyIn "er" (pyLower t) = false ∧
    pyIn "den" (pyLower t) = false ∧ pyIn "det" (pyLower t) = false ∧
    pyIn "en" (pyLower t) = false ∧ pyIn "et" (pyLower t) = false ∧
    pyIn "for" (pyLower t) = false ∧ pyIn "på" (pyLower t) = false := by
  unfold simple_language_detect at h
  by_cases h0 : t = "" ∨ (pyStrip t).length < 3
  · rw [if_pos h0] at h
    exact absurd h (by decide)
  rw [if_neg h0] at h
  by_cases h1 : t.data.any isCyrillicChar = true
  · rw [if_pos h1] at h
    by_cases h1b : anyWordIn ukWords (pyLower t) = true
    · rw [if_pos h1b] at h
      exact absurd h (by decide)
    · rw [if_neg h1b] at h
      exact absurd h (by decide)
  rw [if_neg h1] at h
  by_cases h2 : t.data.any isCJKChar = true
  · rw [if_pos h2] at h
    exact absurd h (by decide)
  rw [if_neg h2] at h
  by_cases h3 : t.data.any isHiraganaChar = true
  · rw [if_pos h3] at h
    exact absurd h (by decide)
  rw [if_neg h3] at h
  by_cases h4 : t.data.any isHangulChar = true
  · rw [if_pos h4] at h
    exact absurd h (by decide)
  rw [if_neg h4] at h
  by_cases h5 : t.data.any isArabicChar = true
  · rw [if_pos h5] at h
    exact absurd h (by decide)
  rw [if_neg h5] at h
  by_cases h6 : t.data.any isHebrewChar = true
  · rw [if_pos h6] at h
    exact absurd h (by decide)
  rw [if_neg h6] at h
  by_cases h7 : t.data.any isGreekChar = true
  · rw [if_pos h7] at h
    exact absurd h (by decide)
  rw [if_neg h7] at h
  by_cases h8 : t.data.any isThaiChar = true
  · rw [if_pos h8] at h
    exact absurd h (by decide)
  rw [if_neg h8] at h
  by_cases h9 : (accentChars.any fun c => t.data.contains c) = true
  · rw [if_pos h9] at h
    by_cases e1 : anyWordIn itWords (pyLower t) = true
    · rw [if_pos e1] at h
      exact absurd h (by decide)
    rw [if_neg e1] at h
    by_cases e2 : anyWordIn esWords (pyLower t) = true
    · rw [if_pos e2] at h
      exact absurd h (by decide)
    rw [if_neg e2] at h
    by_cases e3 : anyWordIn frWords (pyLower t) = true
    · rw [if_pos e3] at h
      exact absurd h (by decide)
    rw [if_neg e3] at h
    by_cases e4 : anyWordIn deWords (pyLower t) = true
    · rw [if_pos e4] at h
      exact absurd h (by decide)
    rw [if_neg e4] at h
    by_cases e5 : anyWordIn ptWords (pyLower t) = true
    · rw [if_pos e5] at h
      exact absurd h (by decide)
    rw [if_neg e5] at h
    exact nordicDetect_da_shape (pyLower t) h
  · rw [if_neg h9] at h
    exact nordicDetect_da_shape (pyLower t) h

/-- C10 witness: "kaffe" is classified as Danish (it contains "af" as a
substring and none of the shared Nordic stop-words). -/
theorem detect_da_requires_af_witness :
    simple_language_detect "kaffe" = "da" ∧ pyIn "af" (pyLower "kaffe") = true :=
  ⟨by decide, (detect_da_requires_af "kaffe" (by decide)).1⟩

/-- C7: every text whose stripped form has fewer than 3 characters is
detected as "en". -/
theorem detect_short_text_en (t : String) (h : (pyStrip t).length < 3) :
    simple_language_detect t = "en" := by
  unfold simple_language_detect
  rw [if_pos (Or.inr h)]

/-- C7 witness: the empty string and a two-letter string are detected as
"en". -/
theorem detect_short_text_en_witness :
    ((pyStrip "").length < 3 ∧ simple_language_detect "" = "en") ∧
    ((pyStrip " ab ").length < 3 ∧ simple_language_detect " ab " = "en") :=
  ⟨⟨by decide, detect_short_text_en "" (by decide)⟩,
   ⟨by decide, detect_short_text_en " ab " (by decide)⟩⟩

/-- C6 counterexample: "famille è" contains the Italian stop-word "il" only
inside the longer word "famille", and no Italian stop-word occurs as a
whole word of it — yet the detector classifies it as Italian, because the
source matches stop-words by plain substring containment
(`word in text_lower`), not by whole words. -/
theorem euro_substring_counterexample :
    simple_language_detect "famille è" = "it" ∧
    specWholeWordMatch itWords (pyLower "famille è") = false ∧
    pyIn "il" (pyLower "famille è") = true := by decide

/-- C6 (corrected): in the European-language step (entered when the text is
long enough, no earlier character-block check fires, and an accented
character from the fixed set occurs), a stop-word list matches when one of
its words occurs as a case-folded *substring* of the text — occurrences
inside longer words count — and the first matching list in the fixed order
it/es/fr/de/pt wins. -/
theorem euro_step_substring_order (t : String)
    (hlen : ¬(t = "" ∨ (pyStrip t).length < 3))
    (h1 : t.data.any isCyrillicChar = false)
    (h2 : t.data.any isCJKChar = false)
    (h3 : t.data.any isHiraganaChar = false)
    (h4 : t.data.any isHangulChar = false)
    (h5 : t.data.any isArabicChar = false)
    (h6 : t.data.any isHebrewChar = false)
    (h7 : t.data.any isGreekChar = false)
    (h8 : t.data.any isThaiChar = false)
    (hacc : (accentChars.any fun c => t.data.contains c) = true) :
    (anyWordIn itWords (pyLower t) = true → simple_language_detect t = "it") ∧
    (anyWordIn itWords (pyLower t) = false → anyWordIn esWords (pyLower t) = true →
      simple_language_detect t = "es") ∧
    (anyWordIn itWords (pyLower t) = false → anyWordIn esWords (pyLower t) = false →
      anyWordIn frWords (pyLower t) = true → simple_language_detect t = "fr") ∧
    (anyWordIn itWords (pyLower t) = false → anyWordIn esWords (pyLower t) = false →
      anyWordIn frWords (pyLower t) = false → anyWordIn deWords (pyLower t) = true →
      simple_language_detect t = "de") ∧
    (anyWordIn itWords (pyLower t) = false → anyWordIn esWords (pyLower t) = false →
      anyWordIn frWords (pyLower t) = false → anyWordIn deWords (pyLower t) = false →
      anyWordIn ptWords (pyLower t) = true → simple_language_detect t = "pt") := by
  have base : simple_language_detect t =
      (if anyWordIn itWords (pyLower t) = true then "it"
       else if anyWordIn esWords (pyLower t) = true then "es"
       else if anyWordIn frWords (pyLower t) = true then "fr"
       else if anyWordIn deWords (pyLower t) = true then "de"
       else if anyWordIn ptWords (pyLower t) = true then "pt"
       else nordicDetect (pyLower t)) := by
    unfold simple_language_detect
    rw [if_neg hlen, if_neg (by simp [h1]), if_neg (by simp [h2]),
      if_neg (by simp [h3]), if_neg (by simp [h4]), if_neg (by simp [h5]),
      if_neg (by simp [h6]), if_neg (by simp [h7]), if_neg (by simp [h8]),
      if_pos hacc]
  refine ⟨?_, ?_, ?_, ?_, ?_⟩
  · intro e1
    rw [base, if_pos e1]
  · intro e1 e2
    rw [base, if_neg (by simp [e1]), if_pos e2]
  · intro e1 e2 e3
    rw [base, if_neg (by simp [e1]), if_neg (by simp [e2]), if_pos e3]
  · intro e1 e2 e3 e4
    rw [base, if_neg (by simp [e1]), if_neg (by simp [e2]), if_neg (by simp [e3]),
      if_pos e4]
  · intro e1 e2 e3 e4 e5
    rw [base, if_neg (by simp [e1]), if_neg (by simp [e2]), if_neg (by simp [e3]),
      if_neg (by simp [e4]), if_pos e5]

/-- C6 witness: "il è" enters the European step and the Italian list
matches by substring, so the detector returns "it". -/
theorem euro_step_substring_order_witness :
    simple_language_detect "il è" = "it" :=
  (euro_step_substring_order "il è" (by decide) (by decide) (by decide) (by decide)
    (by decide) (by decide) (by decide) (by decide) (by decide) (by decide)).1 (by decide)

/-- C5: for an identity pair or an "auto" source, the availability check
returns `True` (`Ready`) immediately, with no engine operation invoked and
the download registry untouched. -/
theorem ensure_auto_or_identity_ready (eng : Engine) (reg : Reg) (s t : String)
    (h : s = "auto" ∨ s = t) :
    ensure_translation_package eng reg s t = (true, reg, []) := by
  unfold ensure_translation_package
  by_cases ha : s = "auto"
  · rw [if_pos ha]
  · rw [if_neg ha]
    rcases h with h | h
    · exact absurd h ha
    · rw [if_pos h]

/-- C5 witness: on an engine whose every operation raises and a non-empty
registry, both the "auto" source and an identity pair return `True` with
the registry unchanged and no engine call. -/
theorem ensure_auto_or_identity_ready_witness :
    ensure_translation_package failEngine ["x-y"] "auto" "en" = (true, ["x-y"], []) ∧
    ensure_translation_package failEngine ["x-y"] "fr" "fr" = (true, ["x-y"], []) :=
  ⟨ensure_auto_or_identity_ready failEngine ["x-y"] "auto" "en" (Or.inl rfl),
   ensure_auto_or_identity_ready failEngine ["x-y"] "fr" "fr" (Or.inr rfl)⟩

/-- C9: an empty or whitespace-only input is returned unchanged, with no
detection, no availability check and no engine call (empty event log),
and the registry untouched. -/
theorem translate_blank_unchanged (eng : Engine) (reg : Reg) (t src tgt : String)
    (h : t = "" ∨ pyStrip t = "") :
    translate_text eng reg t src tgt = (t, reg, []) := by
  unfold translate_text
  rw [if_pos h]

/-- C9 witness: the empty string and a three-space string are returned
unchanged for an arbitrary language pair, even on an engine whose every
operation raises. -/
theorem translate_blank_unchanged_witness :
    translate_text failEngine [] "" "it - Italian (Italiano)" "en - English" = ("", [], []) ∧
    translate_text failEngine [] "   " "auto - Auto-detect" "en - English" = ("   ", [], []) :=
  ⟨translate_blank_unchanged failEngine [] "" "it - Italian (Italiano)" "en - English"
      (Or.inl rfl),
   translate_blank_unchanged failEngine [] "   " "auto - Auto-detect" "en - English"
      (Or.inr (by decide))⟩

/-- C8: when the resolved source code (after auto-detection) equals the
resolved target code, the facade returns the text unchanged, leaves the
registry untouched, and the only event possibly logged is the run of the
(pure) detector — no engine call and no availability check. -/
theorem translate_same_code_unchanged (eng : Engine) (reg : Reg) (t src tgt : String)
    (h : (if get_language_code_from_display src = "auto" then simple_language_detect t
          else get_language_code_from_display src) = get_language_code_from_display tgt) :
    (translate_text eng reg t src tgt).1 = t ∧
    (translate_text eng reg t src tgt).2.1 = reg ∧
    ∀ e ∈ (translate_text eng reg t src tgt).2.2, e = EngEvt.detectEvt := by
  unfold translate_text
  by_cases hb : t = "" ∨ pyStrip t = ""
  · rw [if_pos hb]
    exact ⟨rfl, rfl, by simp⟩
  · rw [if_neg hb]
    by_cases ha : get_language_code_from_display src = "auto"
    · rw [if_pos ha] at h
      rw [if_pos ha]
      unfold translateWithCodes
      rw [if_pos h]
      exact ⟨rfl, rfl, by simp⟩
    · rw [if_neg ha] at h
      rw [if_neg ha]
      unfold translateWithCodes
      rw [if_pos h]
      exact ⟨rfl, rfl, by simp⟩

/-- C8 witness: with source "it - Italian (Italiano)" and target "it", the
resolved codes coincide and the text comes back unchanged with an empty
event log, even on an engine whose every operation raises. -/
theorem translate_same_code_unchanged_witness :
    (translate_text failEngine [] "ciao mondo" "it - Italian (Italiano)" "it").1 = "ciao mondo" ∧
    (translate_text failEngine [] "ciao mondo" "it - Italian (Italiano)" "it").2.1 = [] ∧
    ∀ e ∈ (translate_text failEngine [] "ciao mondo" "it - Italian (Italiano)" "it").2.2,
      e = EngEvt.detectEvt :=
  translate_same_code_unchanged failEngine [] "ciao mondo" "it - Italian (Italiano)" "it"
    (by decide)

/-- Helper: a discarded key is never in the registry afterwards. -/
theorem regRemove_not_mem (reg : Reg) (k : String) : k ∉ regRemove reg k := by
  simp [regRemove]

/-- Helper: discarding an absent key leaves the registry unchanged. -/
theorem regRemove_eq_of_not_mem (reg : Reg) (k : String) (h : k ∉ reg) :
    regRemove reg k = reg := by
  unfold regRemove
  apply List.filter_eq_self.mpr
  intro x hx
  have hne : x ≠ k := fun he => h (he ▸ hx)
  simp [hne]

/-- Helper: the slow path returns exactly the registry it was handed. -/
theorem ensureSlow_reg (eng : Engine) (r : Reg) (s t : String) (log : List EngEvt) :
    (ensureSlow eng r s t log).2.1 = r := by
  unfold ensureSlow
  repeat' split
  all_goals rfl

/-- Helper: the `try` body returns exactly the registry it was handed. -/
theorem ensureTry_reg (eng : Engine) (r : Reg) (s t : String) :
    (ensureTry eng r s t).2.1 = r := by
  unfold ensureTry
  repeat' split
  all_goals first | rfl | apply ensureSlow_reg

/-- Helper: if the key of a pair is not in the registry before the availability
check, it is not in it afterwards, on every exit path. -/
theorem ensure_reg_clean (eng : Engine) (reg : Reg) (s t : String)
    (h : (s ++ "-" ++ t) ∉ reg) :
    (s ++ "-" ++ t) ∉ (ensure_translation_package eng reg s t).2.1 := by
  unfold ensure_translation_package
  repeat' split
  all_goals
    first
      | exact h
      | (rw [ensureTry_reg]; exact regRemove_not_mem reg _)

/-- Helper: when the index lookup finds the package, the package reports
itself not installed, and the download (or the install) raises, the slow
path returns `False`. -/
theorem ensureSlow_fault_false (eng : Engine) (r : Reg) (s t : String)
    (log : List EngEvt) (pkgs : List Pkg) (p : Pkg)
    (hidx : eng.update_package_index = Except.ok ())
    (hav : eng.get_available_packages = Except.ok pkgs)
    (hfind : pkgs.find? (fun q => q.from_code == s && q.to_code == t) = some p)
    (hinst : p.is_installed = Except.ok false)
    (hfault : (∃ e, p.download = Except.error e) ∨
      (∃ pth e, p.download = Except.ok pth ∧ eng.install_from_path pth = Except.error e)) :
    (ensureSlow eng r s t log).1 = false := by
  unfold ensureSlow
  simp only [hidx, hav, hfind, hinst]
  rcases hfault with ⟨e, hd⟩ | ⟨pth, e, hd, hi⟩
  · simp [hd]
  · simp [hd, hi]

/-- C3: if the fast path misses and the download or install step raises,
`ensure_translation_package` returns `False` (`Unavailable`), not an
exception; and the key of the pair is absent from the registry after the call —
on this exit path, as on every exit path of any call whose key was not
already registered. -/
theorem ensure_download_fault_unavailable (eng : Engine) (reg : Reg) (s t : String)
    (langs : List LangEntry) (pkgs : List Pkg) (p : Pkg)
    (hs : s ≠ "auto") (hst : s ≠ t) (hreg : (s ++ "-" ++ t) ∉ reg)
    (hlangs : eng.get_installed_languages 0 = Except.ok langs)
    (hmiss : fastPathMiss langs s t)
    (hidx : eng.update_package_index = Except.ok ())
    (hav : eng.get_available_packages = Except.ok pkgs)
    (hfind : pkgs.find? (fun q => q.from_code == s && q.to_code == t) = some p)
    (hinst : p.is_installed = Except.ok false)
    (hfault : (∃ e, p.download = Except.error e) ∨
      (∃ pth e, p.download = Except.ok pth ∧ eng.install_from_path pth = Except.error e)) :
    (ensure_translation_package eng reg s t).1 = false ∧
    (s ++ "-" ++ t) ∉ (ensure_translation_package eng reg s t).2.1 ∧
    ∀ (eng2 : Engine) (reg2 : Reg) (a b : String), (a ++ "-" ++ b) ∉ reg2 →
      (a ++ "-" ++ b) ∉ (ensure_translation_package eng2 reg2 a b).2.1 := by
  refine ⟨?_, ensure_reg_clean eng reg s t hreg,
    fun eng2 reg2 a b h2 => ensure_reg_clean eng2 reg2 a b h2⟩
  unfold ensure_translation_package
  rw [if_neg hs, if_neg hst, if_neg hreg]
  unfold ensureTry
  simp only [hlangs]
  cases hfs : langs.find? (fun l => l.code == s) with
  | none =>
    exact ensureSlow_fault_false eng _ s t _ pkgs p hidx hav hfind hinst hfault
  | some sl =>
    cases hft : langs.find? (fun l => l.code == t) with
    | none =>
      exact ensureSlow_fault_false eng _ s t _ pkgs p hidx hav hfind hinst hfault
    | some tl =>
      have hm := hmiss sl tl hfs hft
      simp only [hm]
      exact ensureSlow_fault_false eng _ s t _ pkgs p hidx hav hfind hinst hfault

/-- C3 witness: on an engine with no installed languages and an available
`(it, en)` package whose download raises, the call returns `False` and the
registry stays clean. -/
theorem ensure_download_fault_unavailable_witness :
    (ensure_translation_package badDownloadEngine [] "it" "en").1 = false ∧
    "it" ++ "-" ++ "en" ∉ (ensure_translation_package badDownloadEngine [] "it" "en").2.1 :=
  let h := ensure_download_fault_unavailable badDownloadEngine [] "it" "en" [] [badPkg]
    badPkg (by decide) (by decide) (by simp)
    rfl (fun sl tl hfs _ => by simp at hfs) rfl rfl rfl rfl
    (Or.inl ⟨"network down", rfl⟩)
  ⟨h.1, h.2.1⟩

/-- C4: when the engine already reports both languages installed with a
working translation between them, the availability check returns `True`
(`Ready`) after one `get_installed_languages` query and one
`get_translation` call — no index refresh, no download, no install — and
leaves the registry unchanged; in particular, repeating the call performs
no download either. -/
theorem ensure_fast_path_idempotent (eng : Engine) (reg : Reg) (s t : String)
    (langs : List LangEntry) (sl tl : LangEntry) (tr : Translation)
    (hs : s ≠ "auto") (hst : s ≠ t) (hreg : (s ++ "-" ++ t) ∉ reg)
    (hlangs : eng.get_installed_languages 0 = Except.ok langs)
    (hfs : langs.find? (fun l => l.code == s) = some sl)
    (hft : langs.find? (fun l => l.code == t) = some tl)
    (htr : sl.getTranslation tl.code = Except.ok (some tr)) :
    ensure_translation_package eng reg s t =
      (true, reg, [EngEvt.getInstalled, EngEvt.langGetTranslation]) := by
  unfold ensure_translation_package
  rw [if_neg hs, if_neg hst, if_neg hreg, regRemove_eq_of_not_mem reg _ hreg]
  unfold ensureTry
  simp only [hlangs, hfs, hft, htr]

/-- C4 witness: on `readyEngine` (pair `(it, en)` installed, index
operations raising) the call returns `True` with only the fast-path events
logged — since the engine is unchanged by the call, the same equation is
what any repeat call evaluates to, so no repeat call downloads anything. -/
theorem ensure_fast_path_idempotent_witness :
    ensure_translation_package readyEngine [] "it" "en" =
      (true, [], [EngEvt.getInstalled, EngEvt.langGetTranslation]) :=
  ensure_fast_path_idempotent readyEngine [] "it" "en" [langIt, langEn] langIt langEn
    okTranslationIt (by decide) (by decide) (by simp) rfl rfl rfl rfl

/-- Helper: the post-check tail of the facade either hands back the
original text or the successful output of the translation of the engine. -/
theorem afterEnsure_spec (eng : Engine) (reg : Reg) (text sc tc : String)
    (log : List EngEvt) :
    (afterEnsure eng reg text sc tc log).1 = text ∨
    ∃ langs sl tl tr out,
      eng.get_installed_languages 1 = Except.ok langs ∧
      langs.find? (fun l => l.code == sc) = some sl ∧
      langs.find? (fun l => l.code == tc) = some tl ∧
      sl.getTranslation tl.code = Except.ok (some tr) ∧
      tr.run text = Except.ok out ∧
      (afterEnsure eng reg text sc tc log).1 = out := by
  unfold afterEnsure
  cases h1 : eng.get_installed_languages 1 with
  | error e => exact Or.inl rfl
  | ok langs =>
    try dsimp only
    cases h2 : langs.find? (fun l => l.code == sc) with
    | none => exact Or.inl rfl
    | some sl =>
      try dsimp only
      cases h3 : langs.find? (fun l => l.code == tc) with
      | none => exact Or.inl rfl
      | some tl =>
        try dsimp only
        cases h4 : sl.getTranslation tl.code with
        | error e => exact Or.inl rfl
        | ok o =>
          try dsimp only
          cases o with
          | none => exact Or.inl rfl
          | some tr =>
            try dsimp only
            cases h5 : tr.run text with
            | error e => exact Or.inl rfl
            | ok out => exact Or.inr ⟨langs, sl, tl, tr, out, rfl, h2, h3, h4, h5, rfl⟩


/-- Helper: `translateWithCodes` either hands back the original text or the
successful output of the engine translation for its code pair. -/
theorem translateWithCodes_spec (eng : Engine) (reg : Reg) (text sc tc : String)
    (dlog : List EngEvt) :
    (translateWithCodes eng reg text sc tc dlog).1 = text ∨
    ∃ langs sl tl tr out,
      eng.get_installed_languages 1 = Except.ok langs ∧
      langs.find? (fun l => l.code == sc) = some sl ∧
      langs.find? (fun l => l.code == tc) = some tl ∧
      sl.getTranslation tl.code = Except.ok (some tr) ∧
      tr.run text = Except.ok out ∧
      (translateWithCodes eng reg text sc tc dlog).1 = out := by
  unfold translateWithCodes
  split
  · exact Or.inl rfl
  · split
    · exact afterEnsure_spec eng _ text sc tc _
    · exact Or.inl rfl

/-- C2: the facade is total — for every engine behaviour (any call may
raise, modelled by `Except.error`), `translate_text` returns a string, and
that string is either the input unchanged (every internal failure path) or
the successful output of the engine translation of the input. -/
theorem translate_text_total_fallback (eng : Engine) (reg : Reg)
    (text src tgt : String) :
    (translate_text eng reg text src tgt).1 = text ∨
    ∃ sc tc langs sl tl tr out,
      eng.get_installed_languages 1 = Except.ok langs ∧
      langs.find? (fun l => l.code == sc) = some sl ∧
      langs.find? (fun l => l.code == tc) = some tl ∧
      sl.getTranslation tl.code = Except.ok (some tr) ∧
      tr.run text = Except.ok out ∧
      (translate_text eng reg text src tgt).1 = out := by
  unfold translate_text
  split
  · exact Or.inl rfl
  · split
    · rcases translateWithCodes_spec eng reg text (simple_language_detect text)
        (get_language_code_from_display tgt) [EngEvt.detectEvt] with
        h | ⟨langs, sl, tl, tr, out, h1, h2, h3, h4, h5, h6⟩
      · exact Or.inl h
      · exact Or.inr ⟨simple_language_detect text, get_language_code_from_display tgt,
          langs, sl, tl, tr, out, h1, h2, h3, h4, h5, h6⟩
    · rcases translateWithCodes_spec eng reg text (get_language_code_from_display src)
        (get_language_code_from_display tgt) [] with
        h | ⟨langs, sl, tl, tr, out, h1, h2, h3, h4, h5, h6⟩
      · exact Or.inl h
      · exact Or.inr ⟨get_language_code_from_display src, get_language_code_from_display tgt,
          langs, sl, tl, tr, out, h1, h2, h3, h4, h5, h6⟩

set_option synthInstance.maxSize 4000 in
set_option synthInstance.maxHeartbeats 4000000 in
set_option maxHeartbeats 8000000 in
/-- Helper: one machine step preserves the invariant, checked over the
whole (bounded) state space. -/
theorem stepInvAll : ∀ (t : Bool) (lk : Option Bool) (dl ins : Bool)
    (rT rF : Option TRes) (d : Fin 2) (pT pF : Fin 6),
    MInv ⟨lk, dl, ins, d.val, pT.val, pF.val, rT, rF⟩ →
    MInv (step ⟨lk, dl, ins, d.val, pT.val, pF.val, rT, rF⟩ t) := by decide

/-- Helper: every state reachable from an invariant state satisfies the
invariant. -/
theorem run_minv (s : MState) (sched : List Bool) (h : MInv s) :
    MInv (run s sched) := by
  induction sched generalizing s with
  | nil => exact h
  | cons x xs ih =>
    have hx : MInv (step s x) := by
      obtain ⟨lk, dl, ins, d, pT, pF, rT, rF⟩ := s
      have hb1 : d ≤ 1 := h.2.2.2.2.2.2.2.1
      have hb2 : pT ≤ 5 := h.1
      have hb3 : pF ≤ 5 := h.2.1
      exact stepInvAll x lk dl ins rT rF ⟨d, by omega⟩ ⟨pT, by omega⟩ ⟨pF, by omega⟩ h
    exact ih (step s x) hx

/-- C1 counterexample: the behaviour the claim predicts — the second caller
returns `Busy` immediately without blocking — does not happen.  After the
first thread has taken three steps it sits at pc 3 (inside `download()`,
lines 198–199) still holding the lock, because the `with` block of line 153
spans the whole download; the second thread, although scheduled three
times, is still at pc 0 with no result (blocked on the lock, not returning
`Busy`).  When the run completes, the result of the second caller is `Ready`,
not `Busy`. -/
theorem ensure_concurrent_busy_counterexample :
    ((run mInit [true, true, true, false, false, false]).pcT = 3 ∧
     (run mInit [true, true, true, false, false, false]).lockBy = some true ∧
     (run mInit [true, true, true, false, false, false]).pcF = 0 ∧
     (run mInit [true, true, true, false, false, false]).resF = none) ∧
    ((run mInit [true, true, true, true, true, false, false, false]).pcF = 5 ∧
     (run mInit [true, true, true, true, true, false, false, false]).resF ≠ some TRes.busy ∧
     (run mInit [true, true, true, true, true, false, false, false]).resF
        = some TRes.ready) := by decide

/-- C1 (corrected): under every interleaving of two callers of
`ensure_translation_package` for the same never-before-seen pair,
`download()` is invoked at most once, and exactly once when both callers
have returned; no caller ever returns `Busy` (the line-156 branch is
unreachable, because the registry is only non-empty while the lock — held
for the whole `try`/`finally` of lines 153–210 — is owned); both callers
return `Ready`; and a caller at the lock-acquisition point makes no
progress while the other holds the lock (it blocks instead of returning
`Busy`). -/
theorem ensure_concurrent_lock_serialized (sched : List Bool) :
    (run mInit sched).resT ≠ some TRes.busy ∧
    (run mInit sched).resF ≠ some TRes.busy ∧
    (run mInit sched).downloads ≤ 1 ∧
    ((run mInit sched).pcT = 5 → (run mInit sched).pcF = 5 →
      (run mInit sched).downloads = 1 ∧
      (run mInit sched).resT = some TRes.ready ∧
      (run mInit sched).resF = some TRes.ready) ∧
    (∀ s : MState, s.pcF = 0 → s.lockBy = some true → step s false = s) := by
  obtain ⟨h1, h2, h3, h4, h5, h6, h7, h8, h9, h10, h11, h12, h13, h14, h15, h16⟩ :=
    run_minv mInit sched (by decide)
  refine ⟨h15, h16, h8, ?_, ?_⟩
  · intro hT hF
    exact ⟨(h13 hT).2, (h13 hT).1, (h14 hF).1⟩
  · intro s h0 hlk
    unfold step pcOf
    rw [hlk]
    simp [h0]

/-- C1 witness: a concrete completed interleaving in which `download()` ran
exactly once and both callers returned `Ready`; and the concrete blocked
state in which the second thread cannot move while the first holds the
lock. -/
theorem ensure_concurrent_lock_serialized_witness :
    ((run mInit [true, true, true, true, true, false, false, false]).downloads = 1 ∧
     (run mInit [true, true, true, true, true, false, false, false]).resT
        = some TRes.ready ∧
     (run mInit [true, true, true, true, true, false, false, false]).resF
        = some TRes.ready) ∧
    step (run mInit [true, true, true]) false = run mInit [true, true, true] := by
  constructor
  · exact (ensure_concurrent_lock_serialized
      [true, true, true, true, true, false, false, false]).2.2.2.1 (by decide) (by decide)
  · exact (ensure_concurrent_lock_serialized [true, true, true]).2.2.2.2
      (run mInit [true, true, true]) (by decide) (by decide)
